import Mathlib

/-!
Verification development for the repeat-detection tool whose driver is
`src/PERF/core.py`. The configuration handling of `core.py` (argument
validation, cutoff resolution, catalog-builder dispatch, format dispatch) is
embedded shallowly below, and the motif canonicalization — which lives in
`rep_utils.py`, outside the sources at hand — is modelled from the spec.
-/

namespace PERF

/-- Python truthiness of `args.min_length` (an `int` or `None`): `None` and
`0` are falsy, every other integer is truthy. -/
def pyTruthyInt : Option Int → Bool
  | none => false
  | some n => n != 0

/-- Python truthiness of `args.min_units` (a `str` or `None`): `None` and the
empty string are falsy, every other string is truthy. -/
def pyTruthyStr : Option String → Bool
  | none => false
  | some s => s != ""

/-- Value of a decimal digit character, `none` on a non-digit. -/
def digitVal (c : Char) : Option Nat :=
  if c.isDigit then some (c.toNat - '0'.toNat) else none

/-- Decimal value of a nonempty all-digit character list, `none` otherwise. -/
def decDigits (cs : List Char) : Option Nat :=
  if cs.isEmpty then none
  else cs.foldl (fun acc c =>
    match acc, digitVal c with
    | some n, some d => some (n * 10 + d)
    | _, _ => none) (some 0)

/-- Python `int(s)` applied to a whitespace-free token: an optional sign
followed by one or more decimal digits; `none` models the `ValueError`
raised on anything else. (Digit-grouping underscores and non-ASCII digits,
which CPython also accepts, are not modelled; no claim depends on them.) -/
def pyInt (s : String) : Option Int :=
  match s.data with
  | '+' :: cs => (decDigits cs).map (fun n => (n : Int))
  | '-' :: cs => (decDigits cs).map (fun n => -(n : Int))
  | cs => (decDigits cs).map (fun n => (n : Int))

/-- The empty Python dict `dict()` as a lookup table from motif size to unit
cutoff. -/
def emptyTable : Int → Option Int := fun _ => none

/-- Python dict assignment `d[k] = v` as a lookup-table update. -/
def dictSet (d : Int → Option Int) (k v : Int) : Int → Option Int :=
  fun x => if x = k then some v else d x

/-- Outcome of the `for line in input_units` loop of `main` (core.py lines
128-137): the built `unit_cutoff` dict together with the motif sizes warned
about on stderr, or the abnormal termination that interrupted the loop.
Warnings already printed before the interruption are carried in every
outcome. -/
inductive UnitsResult where
  | ok (table : Int → Option Int) (warned : List Int)
  | invalidFormatExit (warned : List Int)
  | indexError (warned : List Int)

/-- Stderr warnings printed so far, for any loop outcome. -/
def UnitsResult.warned : UnitsResult → List Int
  | .ok _ w => w
  | .invalidFormatExit w => w
  | .indexError w => w

/-- One iteration of the units-file loop on the already-split fields of a
line (`L = line.strip().split()`): reading `L[0]` or `L[1]` off the end of
the field list raises IndexError, which nothing catches; a field that `int`
rejects raises ValueError, caught and turned into
`sys.exit('Invalid file format given for minimum units. ...')`; otherwise a
warning is printed when the unit value is 1, and `unit_cutoff[L[0]] = L[1]`
is assigned. -/
def processLine (t : Int → Option Int) (w : List Int) :
    List String → UnitsResult
  | [] => .indexError w
  | [f0] =>
    match pyInt f0 with
    | none => .invalidFormatExit w
    | some _ => .indexError w
  | f0 :: f1 :: _ =>
    match pyInt f0 with
    | none => .invalidFormatExit w
    | some k =>
      match pyInt f1 with
      | none => .invalidFormatExit w
      | some v => .ok (dictSet t k v) (w ++ if v = 1 then [k] else [])

/-- The units-file loop of `main` over the split lines of the file, carried
out from a given dict and warning state. -/
def processLines : List (List String) → (Int → Option Int) → List Int → UnitsResult
  | [], t, w => .ok t w
  | l :: ls, t, w =>
    match processLine t w l with
    | .ok t2 w2 => processLines ls t2 w2
    | .invalidFormatExit w2 => .invalidFormatExit w2
    | .indexError w2 => .indexError w2

/-- How the cutoff dispatch of `main` (core.py lines 116-145) ends: which
call to `ssr_native` is made (if any), or which abnormal termination
happens first. -/
inductive MainCutoff where
  | callLength (cutoff : Int)
  | callUnit (table : Int → Option Int) (warned : List Int)
  | exitInvalidFormat (warned : List Int)
  | exitFileNotFound
  | indexError (warned : List Int)
  | noCall

/-- Whether the outcome is a call to `ssr_native` (so scanning starts). -/
def MainCutoff.callsSSR : MainCutoff → Bool
  | .callLength _ => true
  | .callUnit _ _ => true
  | _ => false

/-- Whether the outcome is an uncaught IndexError. -/
def MainCutoff.isIndexError : MainCutoff → Bool
  | .indexError _ => true
  | _ => false

/-- Whether the outcome is the `sys.exit('Invalid file format ...')` path. -/
def MainCutoff.isInvalidFormatExit : MainCutoff → Bool
  | .exitInvalidFormat _ => true
  | _ => false

/-- Stderr warning list, when `ssr_native` is reached with a unit cutoff. -/
def MainCutoff.warnings : MainCutoff → Option (List Int)
  | .callUnit _ w => some w
  | _ => none

/-- Entry of the unit-cutoff dict at key `k`, when `ssr_native` is reached
with a unit cutoff. -/
def MainCutoff.tableAt (k : Int) : MainCutoff → Option (Option Int)
  | .callUnit t _ => some (t k)
  | _ => none

/-- How a finished units-file loop maps onto the fate of `main`: a normal
loop end leads to `ssr_native(args, unit_cutoff=unit_cutoff)`, the two
abnormal terminations propagate. -/
def unitsOutcome : UnitsResult → MainCutoff
  | .ok t w => .callUnit t w
  | .invalidFormatExit w => .exitInvalidFormat w
  | .indexError w => .indexError w

/-- Cutoff dispatch of `main` (core.py lines 116-145). `min_length` and
`min_units` are the parsed `-l` / `-u` options; `unitsFile` is the split
line content of the file named by `min_units` (`none` when no such file
exists, so that `open` raises FileNotFoundError, caught and turned into
`sys.exit('Units file specified is not found. ...')`). The branches mirror
the source: `if args.min_length:` (truthiness test), `elif args.min_units:`
(truthiness test) where the scalar `int(args.min_units)` attempt falls back
on ValueError to reading the file with `unit_cutoff = dict()`, and
`elif args.min_length is None and args.min_units is None:` which installs
the default length cutoff of 12. The scalar success path assigns
`unit_cutoff[0]` and prints no warning. -/
def main_cutoff (min_length : Option Int) (min_units : Option String)
    (unitsFile : Option (List (List String))) : MainCutoff :=
  if pyTruthyInt min_length then
    .callLength (min_length.getD 0)
  else if pyTruthyStr min_units then
    match pyInt (min_units.getD "") with
    | some n => .callUnit (dictSet emptyTable 0 n) []
    | none =>
      match unitsFile with
      | none => .exitFileNotFound
      | some lines => unitsOutcome (processLines lines emptyTable [])
  else if min_length.isNone && min_units.isNone then
    .callLength 12
  else
    .noCall

/-- The post-parse validation in `getArgs` (core.py lines 73-74): the run is
aborted via `parser.error` ("-rep is not allowed with -m, -M") exactly when
`args.repeats` is truthy (a repeats file was supplied and opened) and
`args.min_motif_size or args.max_motif_size` is truthy, i.e. at least one
of the two sizes is a nonzero integer. The sizes default to 1 and 6. -/
def getArgs_rejects (repeats_given : Bool) (min_motif_size max_motif_size : Int) : Bool :=
  repeats_given && ((min_motif_size != 0) || (max_motif_size != 0))

/-- Where the format dispatch of `ssr_native` ends up. -/
inductive SsrDispatch where
  | fasta_ssrs
  | fastq_ssrs
  | nameError
deriving DecidableEq

/-- The format dispatch of `ssr_native` (core.py lines 96-100). The first
branch tests `args.format == 'fasta'`; the `elif` branch tests
`input_format == 'fastq'`, but the name `input_format` is bound nowhere in
core.py nor among its imports, so evaluating that condition raises
NameError before `fastq_ssrs` can be reached. -/
def ssr_native_dispatch (fmt : String) : SsrDispatch :=
  if fmt = "fasta" then .fasta_ssrs else .nameError

/-- What `args.repeats` holds when `ssr_native` is reached: either the
user-supplied repeats file or the catalog returned by
`generate_repeats(min, max, include_atomic)`, identified here by the
arguments it was called with (`generate_repeats` itself lives in
rep_utils.py, outside core.py). -/
inductive Repeats where
  | fromFile (contents : List String)
  | generated (minSize maxSize : Int) (includeAtomic : Bool)
deriving DecidableEq

/-- One recorded call to `generate_repeats`. -/
structure GenCall where
  minSize : Int
  maxSize : Int
  includeAtomic : Bool
deriving DecidableEq

/-- The repeats-resolution step of `main` (core.py lines 110-113): when
`args.repeats is None`, the catalog builder is called once with
`(min_motif_size, max_motif_size, include_atomic)` and its result replaces
`args.repeats`; otherwise the user file is kept untouched. Returns the
resulting `args.repeats` and the list of `generate_repeats` calls made. -/
def main_repeats (repeats : Option (List String)) (min_motif_size max_motif_size : Int)
    (include_atomic : Bool) : Repeats × List GenCall :=
  match repeats with
  | none => (.generated min_motif_size max_motif_size include_atomic,
             [⟨min_motif_size, max_motif_size, include_atomic⟩])
  | some r => (.fromFile r, [])

/-- Whether a split units-file line assigns the motif size `s`: its first
field parses as the integer `s` and a second field exists, so that the loop
iteration would execute `unit_cutoff[s] = int(L[1])`. -/
def bindsSize (s : Int) : List String → Bool
  | f0 :: _ :: _ => pyInt f0 == some s
  | _ => false

/-- Modelled from the spec: the rotations ("cycles") of a motif, obtained by
concatenating the string with itself and taking every window of motif
length, one per start offset. The function realizing this lives in
rep_utils.py, which is not among the sources at hand. -/
def cycles (m : List Char) : List (List Char) :=
  (List.range m.length).map (fun i => ((m ++ m).drop i).take m.length)

/-- Modelled from the spec: rotation of a motif by an offset `j`, cyclic, so
the offset acts modulo the motif length. -/
def rotate (m : List Char) (j : Nat) : List Char :=
  m.drop (j % m.length) ++ m.take (j % m.length)

/-- Modelled from the spec: the canonical representative of a motif is its
lexicographically smallest rotation (the minimal window of length `k` in
the doubled string). Realized in rep_utils.py, outside the sources at
hand. -/
def canonical (m : List Char) : List Char :=
  (cycles m).foldl min m

/-- Splitting a line list at an append distributes over the units-file
loop. -/
theorem processLines_append (A B : List (List String)) (t : Int → Option Int)
    (w : List Int) :
    processLines (A ++ B) t w =
      match processLines A t w with
      | .ok t2 w2 => processLines B t2 w2
      | .invalidFormatExit w2 => .invalidFormatExit w2
      | .indexError w2 => .indexError w2 := by
  induction A generalizing t w with
  | nil => rfl
  | cons l ls ih =>
    simp only [List.cons_append, processLines]
    cases processLine t w l with
    | ok t2 w2 => exact ih t2 w2
    | invalidFormatExit w2 => rfl
    | indexError w2 => rfl

/-- One loop iteration only ever appends to the warning list. -/
theorem processLine_warned_prefix (t : Int → Option Int) (w : List Int)
    (l : List String) :
    ∃ v, (processLine t w l).warned = w ++ v := by
  cases l with
  | nil => exact ⟨[], by simp [processLine, UnitsResult.warned]⟩
  | cons f0 fs =>
    cases fs with
    | nil =>
      cases hpf : pyInt f0 with
      | none => exact ⟨[], by simp [processLine, hpf, UnitsResult.warned]⟩
      | some k => exact ⟨[], by simp [processLine, hpf, UnitsResult.warned]⟩
    | cons f1 fs2 =>
      cases hpf : pyInt f0 with
      | none => exact ⟨[], by simp [processLine, hpf, UnitsResult.warned]⟩
      | some k =>
        cases hpf2 : pyInt f1 with
        | none => exact ⟨[], by simp [processLine, hpf, hpf2, UnitsResult.warned]⟩
        | some v =>
          exact ⟨if v = 1 then [k] else [],
            by simp [processLine, hpf, hpf2, UnitsResult.warned]⟩

/-- The units-file loop only ever appends to the warning list. -/
theorem processLines_warned_prefix (L : List (List String))
    (t : Int → Option Int) (w : List Int) :
    ∃ w2, (processLines L t w).warned = w ++ w2 := by
  induction L generalizing t w with
  | nil => exact ⟨[], by simp [processLines, UnitsResult.warned]⟩
  | cons l ls ih =>
    obtain ⟨v, hv⟩ := processLine_warned_prefix t w l
    cases hl : processLine t w l with
    | ok t2 w2 =>
      rw [hl] at hv
      have hv2 : w2 = w ++ v := hv
      subst hv2
      obtain ⟨w3, hw3⟩ := ih t2 (w ++ v)
      refine ⟨v ++ w3, ?_⟩
      simp only [processLines, hl, hw3, List.append_assoc]
    | invalidFormatExit w2 =>
      rw [hl] at hv
      exact ⟨v, by simp only [processLines, hl, UnitsResult.warned]; exact hv⟩
    | indexError w2 =>
      rw [hl] at hv
      exact ⟨v, by simp only [processLines, hl, UnitsResult.warned]; exact hv⟩

/-- Appending to a successfully processed prefix continues the loop from the
state the prefix produced. -/
theorem processLines_append_ok (A B : List (List String))
    (t : Int → Option Int) (w : List Int) (t2 : Int → Option Int)
    (w2 : List Int) (h : processLines A t w = UnitsResult.ok t2 w2) :
    processLines (A ++ B) t w = processLines B t2 w2 := by
  rw [processLines_append, h]

/-- A loop iteration returns normally exactly on a line with two integer
leading fields, and then it performs the dict assignment and the
unit-value-1 warning. -/
theorem processLine_ok_elim (t : Int → Option Int) (w : List Int)
    (l : List String) (t2 : Int → Option Int) (w2 : List Int)
    (h : processLine t w l = UnitsResult.ok t2 w2) :
    ∃ f0 f1 rest k v, l = f0 :: f1 :: rest ∧ pyInt f0 = some k ∧
      pyInt f1 = some v ∧ t2 = dictSet t k v ∧
      w2 = w ++ if v = 1 then [k] else [] := by
  cases l with
  | nil => simp [processLine] at h
  | cons f0 fs =>
    cases fs with
    | nil => cases hpf : pyInt f0 <;> simp [processLine, hpf] at h
    | cons f1 fs2 =>
      cases hpf : pyInt f0 with
      | none => simp [processLine, hpf] at h
      | some k =>
        cases hpf2 : pyInt f1 with
        | none => simp [processLine, hpf, hpf2] at h
        | some v =>
          simp only [processLine, hpf, hpf2, UnitsResult.ok.injEq] at h
          exact ⟨f0, f1, fs2, k, v, rfl, hpf, hpf2, h.1.symm, h.2.symm⟩

/-- With a falsy `min_length` and a truthy `min_units` that `int` rejects,
and no file of that name, `main` exits through the missing-file
diagnostic. -/
theorem main_cutoff_file_none (min_length : Option Int) (mu : String)
    (hml : pyTruthyInt min_length = false) (hmu : mu ≠ "")
    (hint : pyInt mu = none) :
    main_cutoff min_length (some mu) none = MainCutoff.exitFileNotFound := by
  have h1 : pyTruthyStr (some mu) = true := by simp [pyTruthyStr, hmu]
  simp [main_cutoff, hml, h1, hint]

/-- With a falsy `min_length` and a truthy `min_units` that `int` rejects,
`main` parses the units file and its fate is the loop's fate. -/
theorem main_cutoff_file_some (min_length : Option Int) (mu : String)
    (lines : List (List String))
    (hml : pyTruthyInt min_length = false) (hmu : mu ≠ "")
    (hint : pyInt mu = none) :
    main_cutoff min_length (some mu) (some lines) =
      unitsOutcome (processLines lines emptyTable []) := by
  have h1 : pyTruthyStr (some mu) = true := by simp [pyTruthyStr, hmu]
  simp [main_cutoff, hml, h1, hint]

/-- C1: contrary to the claim, a configuration supplying a repeats file with
the motif-size options left at their defaults (min 1, max 6) is rejected by
`getArgs`: the check tests the truthiness of the size values, and the
nonzero defaults are truthy, so `parser.error` fires. Validation keeps a
repeats-file configuration only when both sizes are 0. -/
theorem C1_repeats_rejected_at_defaults :
    getArgs_rejects true 1 6 = true ∧ getArgs_rejects true 0 0 = false := by
  decide

/-- C2: contrary to the claim, with `--format fastq` the run never reaches
`fastq_ssrs`: the format dispatch of `ssr_native` falls into the branch
that evaluates the unbound name `input_format`, raising NameError, while
"fasta" does dispatch to `fasta_ssrs`. -/
theorem C2_fastq_raises_name_error :
    ssr_native_dispatch "fastq" = SsrDispatch.nameError ∧
    ssr_native_dispatch "fasta" = SsrDispatch.fasta_ssrs := by
  decide

/-- C3: when neither `--min-length` nor `--min-units` is supplied (both are
`None`), `main` sets `min_length` to 12 and invokes `ssr_native` with
`length_cutoff = 12`, whatever the filesystem holds. -/
theorem C3_default_length_cutoff_12 (unitsFile : Option (List (List String))) :
    main_cutoff none none unitsFile = MainCutoff.callLength 12 := rfl

/-- C8: with `--min-length 0` and `--min-units` absent, none of the three
cutoff branches of `main` fires: `ssr_native` is never invoked, so no
scanning occurs and no cutoff — not even the 12 bp default — is applied. -/
theorem C8_min_length_zero_no_branch (unitsFile : Option (List (List String))) :
    main_cutoff (some 0) none unitsFile = MainCutoff.noCall ∧
    (main_cutoff (some 0) none unitsFile).callsSSR = false := ⟨rfl, rfl⟩

/-- C6: `generate_repeats` is called exactly once, with
`(min_motif_size, max_motif_size, include_atomic)`, precisely when no user
repeats file is supplied; with a user file no call is made and the file is
kept as the motif source. -/
theorem C6_generate_repeats_iff_no_user_list (m M : Int) (inc : Bool)
    (r : List String) :
    (main_repeats none m M inc).2 = [⟨m, M, inc⟩] ∧
    (main_repeats none m M inc).1 = Repeats.generated m M inc ∧
    (main_repeats (some r) m M inc).2 = [] ∧
    (main_repeats (some r) m M inc).1 = Repeats.fromFile r :=
  ⟨rfl, rfl, rfl, rfl⟩

/-- C4: with the units-file cutoff mode active, a reached line whose first
two fields are not both integers makes `main` exit through the
'Invalid file format' diagnostic, and a missing units file makes it exit
through the 'Units file specified is not found' diagnostic; in both cases
`ssr_native` is never invoked, so no scanning begins. -/
theorem C4_units_file_errors_are_fatal (min_length : Option Int) (mu : String)
    (hml : pyTruthyInt min_length = false) (hmu : mu ≠ "")
    (hint : pyInt mu = none) :
    (main_cutoff min_length (some mu) none = MainCutoff.exitFileNotFound ∧
      (main_cutoff min_length (some mu) none).callsSSR = false) ∧
    ∀ (L1 : List (List String)) (f0 f1 : String) (rest : List String)
      (more : List (List String)) (t : Int → Option Int) (w : List Int),
      processLines L1 emptyTable [] = UnitsResult.ok t w →
      (pyInt f0 = none ∨ pyInt f1 = none) →
      (main_cutoff min_length (some mu)
          (some (L1 ++ (f0 :: f1 :: rest) :: more))).isInvalidFormatExit = true ∧
      (main_cutoff min_length (some mu)
          (some (L1 ++ (f0 :: f1 :: rest) :: more))).callsSSR = false := by
  constructor
  · rw [main_cutoff_file_none min_length mu hml hmu hint]
    exact ⟨rfl, rfl⟩
  · intro L1 f0 f1 rest more t w h1 hbad
    have hline : processLine t w (f0 :: f1 :: rest) =
        UnitsResult.invalidFormatExit w := by
      rcases hbad with hb | hb
      · simp [processLine, hb]
      · cases hpf : pyInt f0 with
        | none => simp [processLine, hpf]
        | some k => simp [processLine, hpf, hb]
    rw [main_cutoff_file_some min_length mu _ hml hmu hint,
      processLines_append_ok L1 ((f0 :: f1 :: rest) :: more) emptyTable [] t w h1]
    simp only [processLines, hline, unitsOutcome]
    exact ⟨rfl, rfl⟩

/-- Witness for C4 at a concrete configuration: min_length absent,
min_units the file name "u.txt" (not an integer), with a missing file and
with a file whose line "x 2" has a non-integer first field. -/
theorem C4_units_file_errors_are_fatal_witness :
    (pyTruthyInt (none : Option Int) = false ∧ "u.txt" ≠ "" ∧
      pyInt "u.txt" = none ∧
      processLines [] emptyTable [] = UnitsResult.ok emptyTable [] ∧
      pyInt "x" = none) ∧
    main_cutoff none (some "u.txt") none = MainCutoff.exitFileNotFound ∧
    (main_cutoff none (some "u.txt")
        (some [["x", "2"]])).isInvalidFormatExit = true :=
  ⟨⟨by decide, by decide, by decide, rfl, by decide⟩,
   (C4_units_file_errors_are_fatal none "u.txt" (by decide) (by decide)
      (by decide)).1.1,
   ((C4_units_file_errors_are_fatal none "u.txt" (by decide) (by decide)
      (by decide)).2 [] "x" "2" [] [] emptyTable [] rfl
      (Or.inl (by decide))).1⟩

/-- C9 counterexample: the units file whose single line is "abc" contains a
line with fewer than two whitespace-separated fields, yet no IndexError is
raised — `int("abc")` raises ValueError first, which IS caught, so the run
exits through the documented 'Invalid file format' path. -/
theorem C9_one_field_line_counterexample :
    (main_cutoff none (some "u.txt") (some [["abc"]])).isIndexError = false ∧
    (main_cutoff none (some "u.txt")
        (some [["abc"]])).isInvalidFormatExit = true := by
  decide

/-- C9 amended: a reached units-file line with no fields at all (e.g. a
blank line), or with exactly one field and that field parses as an integer,
makes `main` raise an uncaught IndexError when indexing the split fields,
rather than exiting through the documented 'Invalid file format' path; a
one-field line whose field is not an integer instead exits through the
documented path. -/
theorem C9_short_line_index_error (min_length : Option Int) (mu : String)
    (L1 : List (List String)) (l : List String) (more : List (List String))
    (t : Int → Option Int) (w : List Int)
    (hml : pyTruthyInt min_length = false) (hmu : mu ≠ "")
    (hint : pyInt mu = none)
    (h1 : processLines L1 emptyTable [] = UnitsResult.ok t w)
    (hl : l = [] ∨ ∃ f0 n, l = [f0] ∧ pyInt f0 = some n) :
    (main_cutoff min_length (some mu) (some (L1 ++ l :: more))).isIndexError = true ∧
    (main_cutoff min_length (some mu)
        (some (L1 ++ l :: more))).isInvalidFormatExit = false := by
  have hline : processLine t w l = UnitsResult.indexError w := by
    rcases hl with rfl | ⟨f0, n, rfl, hf⟩
    · rfl
    · simp [processLine, hf]
  rw [main_cutoff_file_some min_length mu _ hml hmu hint,
    processLines_append_ok L1 (l :: more) emptyTable [] t w h1]
  simp only [processLines, hline, unitsOutcome]
  exact ⟨rfl, rfl⟩

/-- Witness for the amended C9 at a concrete configuration: a units file
whose single line is blank raises the uncaught IndexError. -/
theorem C9_short_line_index_error_witness :
    (pyTruthyInt (none : Option Int) = false ∧ "u.txt" ≠ "" ∧
      pyInt "u.txt" = none ∧
      processLines [] emptyTable [] = UnitsResult.ok emptyTable []) ∧
    (main_cutoff none (some "u.txt") (some [[]])).isIndexError = true :=
  ⟨⟨by decide, by decide, by decide, rfl⟩,
   (C9_short_line_index_error none "u.txt" [] [] [] emptyTable []
      (by decide) (by decide) (by decide) rfl (Or.inl rfl)).1⟩

/-- C10: duplicate motif sizes in a units file are accepted, and the last
line for a size wins. First part: appending a well-formed line `s v` to a
successfully parsed prefix always returns normally — whether or not the
prefix already bound `s` — and overwrites the dict entry at `s` with `v`.
Second part: further lines that do not bind `s` leave the entry
unchanged, so the value of the last line binding `s` is what the final
`unit_cutoff` dict maps `s` to. -/
theorem C10_duplicate_sizes_last_wins :
    (∀ (L1 : List (List String)) (f0 f1 : String) (rest : List String)
       (s v : Int) (t : Int → Option Int) (w : List Int),
       processLines L1 emptyTable [] = UnitsResult.ok t w →
       pyInt f0 = some s → pyInt f1 = some v →
       processLines (L1 ++ [f0 :: f1 :: rest]) emptyTable [] =
         UnitsResult.ok (dictSet t s v) (w ++ if v = 1 then [s] else []) ∧
       dictSet t s v s = some v) ∧
    (∀ (L2 : List (List String)) (t : Int → Option Int) (w : List Int)
       (t2 : Int → Option Int) (w2 : List Int) (s : Int),
       processLines L2 t w = UnitsResult.ok t2 w2 →
       (∀ l ∈ L2, bindsSize s l = false) →
       t2 s = t s) := by
  constructor
  · intro L1 f0 f1 rest s v t w h1 hf0 hf1
    refine ⟨?_, by simp [dictSet]⟩
    rw [processLines_append_ok L1 [f0 :: f1 :: rest] emptyTable [] t w h1]
    simp [processLines, processLine, hf0, hf1]
  · intro L2
    induction L2 with
    | nil =>
      intro t w t2 w2 s h _
      simp only [processLines, UnitsResult.ok.injEq] at h
      rw [← h.1]
    | cons l ls ih =>
      intro t w t2 w2 s h hb
      simp only [processLines] at h
      cases hl : processLine t w l with
      | ok t3 w3 =>
        rw [hl] at h
        obtain ⟨f0, f1, fs, k, v, rfl, hpf, hpf2, ht3, -⟩ :=
          processLine_ok_elim t w (l) t3 w3 hl
        have hk : k ≠ s := by
          have hbl := hb _ (List.mem_cons_self _ _)
          simp only [bindsSize, hpf, beq_iff_eq, Option.some.injEq] at hbl
          intro hks
          simp [hks] at hbl
        have := ih t3 w3 t2 w2 s h (fun l2 hl2 => hb l2 (List.mem_cons_of_mem _ hl2))
        rw [this, ht3]
        simp only [dictSet]
        rw [if_neg (fun h2 : s = k => hk h2.symm)]
      | invalidFormatExit w3 => rw [hl] at h; cases h
      | indexError w3 => rw [hl] at h; cases h

/-- Witness for C10 at a concrete units file: "2 4" followed by "2 5" parses
without error and leaves size 2 mapped to 5; a further line "3 7" leaves
the entry at size 2 untouched. -/
theorem C10_duplicate_sizes_last_wins_witness :
    (processLines [["2", "4"]] emptyTable [] =
       UnitsResult.ok (dictSet emptyTable 2 4) [] ∧
     pyInt "2" = some 2 ∧ pyInt "5" = some 5 ∧
     processLines [["3", "7"]] (dictSet (dictSet emptyTable 2 4) 2 5) [] =
       UnitsResult.ok (dictSet (dictSet (dictSet emptyTable 2 4) 2 5) 3 7) [] ∧
     (∀ l ∈ [["3", "7"]], bindsSize 2 l = false)) ∧
    (processLines [["2", "4"], ["2", "5"]] emptyTable [] =
       UnitsResult.ok (dictSet (dictSet emptyTable 2 4) 2 5) [] ∧
     dictSet (dictSet emptyTable 2 4) 2 5 2 = some 5) ∧
    dictSet (dictSet (dictSet emptyTable 2 4) 2 5) 3 7 2 =
      dictSet (dictSet emptyTable 2 4) 2 5 2 :=
  ⟨⟨rfl, by decide, by decide, rfl, by decide⟩,
   C10_duplicate_sizes_last_wins.1 [["2", "4"]] "2" "5" [] 2 5
     (dictSet emptyTable 2 4) [] rfl (by decide) (by decide),
   C10_duplicate_sizes_last_wins.2 [["3", "7"]]
     (dictSet (dictSet emptyTable 2 4) 2 5) []
     (dictSet (dictSet (dictSet emptyTable 2 4) 2 5) 3 7) [] 2 rfl
     (by decide)⟩

/-- C5 counterexample: a scalar `--min-units` of 1 does configure a unit
threshold of 1 (the dict maps the scalar key 0 to 1, applying to every
size), yet the warning list is empty — no warning is printed on the scalar
path, contrary to the claim. -/
theorem C5_scalar_one_no_warning :
    (main_cutoff none (some "1") none).tableAt 0 = some (some 1) ∧
    (main_cutoff none (some "1") none).warnings = some [] := by
  decide

/-- C5 amended: the warning for a unit threshold of 1 is emitted only on the
units-file path. A reached file line mapping a size `s` to unit value 1
puts `s` on the stderr warning list, whatever happens to the rest of the
file; a scalar `--min-units` value — including 1 — never produces a
warning. -/
theorem C5_warning_only_for_file_entries :
    (∀ (L1 : List (List String)) (f0 f1 : String) (rest : List String)
       (L2 : List (List String)) (s : Int) (t : Int → Option Int)
       (w : List Int),
       processLines L1 emptyTable [] = UnitsResult.ok t w →
       pyInt f0 = some s → pyInt f1 = some 1 →
       s ∈ (processLines (L1 ++ (f0 :: f1 :: rest) :: L2) emptyTable []).warned) ∧
    (∀ (mu : String) (n : Int), mu ≠ "" → pyInt mu = some n →
       (main_cutoff none (some mu) none).warnings = some []) := by
  constructor
  · intro L1 f0 f1 rest L2 s t w h1 hf0 hf1
    rw [processLines_append_ok L1 ((f0 :: f1 :: rest) :: L2) emptyTable [] t w h1]
    have hline : processLine t w (f0 :: f1 :: rest) =
        UnitsResult.ok (dictSet t s 1) (w ++ [s]) := by
      simp [processLine, hf0, hf1]
    simp only [processLines, hline]
    obtain ⟨w2, hw2⟩ :=
      processLines_warned_prefix L2 (dictSet t s 1) (w ++ [s])
    rw [hw2]
    simp
  · intro mu n hmu hn
    have h1 : pyTruthyStr (some mu) = true := by simp [pyTruthyStr, hmu]
    simp [main_cutoff, pyTruthyInt, h1, hn, MainCutoff.warnings]

/-- Witness for the amended C5 at a concrete input: the units file whose
single line is "2 1" warns about size 2, and the scalar value "1" produces
an empty warning list. -/
theorem C5_warning_only_for_file_entries_witness :
    (processLines [] emptyTable [] = UnitsResult.ok emptyTable [] ∧
      pyInt "2" = some 2 ∧ pyInt "1" = some 1 ∧ "1" ≠ "") ∧
    2 ∈ (processLines [["2", "1"]] emptyTable []).warned ∧
    (main_cutoff none (some "1") none).warnings = some [] :=
  ⟨⟨rfl, by decide, by decide, by decide⟩,
   C5_warning_only_for_file_entries.1 [] "2" "1" [] [] 2 emptyTable [] rfl
     (by decide) (by decide),
   C5_warning_only_for_file_entries.2 "1" 1 (by decide) (by decide)⟩

/-- A window of the doubled motif is a rotation. -/
theorem window_eq_rotate (m : List Char) (i : Nat) (hi : i ≤ m.length) :
    ((m ++ m).drop i).take m.length = m.rotate i := by
  rw [List.rotate_eq_drop_append_take hi, List.drop_append_eq_append_drop,
    Nat.sub_eq_zero_of_le hi, List.drop_zero, List.take_append_eq_append_take,
    List.take_of_length_le (by rw [List.length_drop]; omega)]
  congr 1
  rw [List.length_drop]
  congr 1
  omega

/-- The cycle list holds exactly the rotations with offsets below the
length. -/
theorem mem_cycles_iff (m x : List Char) :
    x ∈ cycles m ↔ ∃ i, i < m.length ∧ x = m.rotate i := by
  simp only [cycles, List.mem_map, List.mem_range]
  constructor
  · rintro ⟨i, hi, rfl⟩
    exact ⟨i, hi, window_eq_rotate m i hi.le⟩
  · rintro ⟨i, hi, rfl⟩
    exact ⟨i, hi, window_eq_rotate m i hi.le⟩

/-- A left fold of `min` lands on its seed or one of the folded elements. -/
theorem foldl_min_mem {β : Type} [LinearOrder β] (l : List β) (a : β) :
    l.foldl min a ∈ a :: l := by
  induction l generalizing a with
  | nil => simp
  | cons b l ih =>
    simp only [List.foldl_cons]
    rcases List.mem_cons.1 (ih (min a b)) with h1 | h1
    · rcases min_choice a b with h2 | h2
      · rw [h1, h2]
        exact List.mem_cons_self _ _
      · rw [h1, h2]
        exact List.mem_cons_of_mem _ (List.mem_cons_self _ _)
    · exact List.mem_cons_of_mem _ (List.mem_cons_of_mem _ h1)

/-- A left fold of `min` is below its seed. -/
theorem foldl_min_le_init {β : Type} [LinearOrder β] (l : List β) (a : β) :
    l.foldl min a ≤ a := by
  induction l generalizing a with
  | nil => exact le_refl a
  | cons c l ih =>
    simp only [List.foldl_cons]
    exact le_trans (ih (min a c)) (min_le_left _ _)

/-- A left fold of `min` is below its seed and every folded element. -/
theorem foldl_min_le {β : Type} [LinearOrder β] (l : List β) (a b : β)
    (hb : b ∈ a :: l) : l.foldl min a ≤ b := by
  induction l generalizing a with
  | nil =>
    simp only [List.foldl_nil]
    rcases List.mem_cons.1 hb with rfl | h
    · exact le_refl b
    · cases h
  | cons c l ih =>
    simp only [List.foldl_cons]
    rcases List.mem_cons.1 hb with rfl | h
    · exact le_trans (foldl_min_le_init l (min b c)) (min_le_left _ _)
    · rcases List.mem_cons.1 h with rfl | h2
      · exact le_trans (foldl_min_le_init l (min a b)) (min_le_right _ _)
      · exact ih (min a c) (List.mem_cons_of_mem _ h2)

/-- The canonical representative of a nonempty motif is one of its
rotations. -/
theorem canonical_mem (m : List Char) (hm : m ≠ []) : canonical m ∈ cycles m := by
  have h0 : m ∈ cycles m :=
    (mem_cycles_iff m m).2 ⟨0, List.length_pos.2 hm, (List.rotate_zero m).symm⟩
  show (cycles m).foldl min m ∈ cycles m
  rcases List.mem_cons.1 (foldl_min_mem (cycles m) m) with h1 | h1
  · rw [h1]
    exact h0
  · exact h1

/-- The canonical representative is below the motif and every rotation. -/
theorem canonical_le (m x : List Char) (hx : x ∈ m :: cycles m) :
    canonical m ≤ x :=
  foldl_min_le (cycles m) m x hx

/-- Rotating the motif permutes its cycle list: membership is unchanged. -/
theorem mem_cycles_rotate (m x : List Char) (j : Nat) :
    x ∈ cycles (m.rotate j) ↔ x ∈ cycles m := by
  rcases eq_or_ne m [] with rfl | hm
  · rw [List.rotate_nil]
  · have hlen : 0 < m.length := List.length_pos.2 hm
    rw [mem_cycles_iff, mem_cycles_iff]
    simp only [List.length_rotate]
    constructor
    · rintro ⟨i, hi, rfl⟩
      refine ⟨(j + i) % m.length, Nat.mod_lt _ hlen, ?_⟩
      rw [List.rotate_rotate, List.rotate_mod]
    · rintro ⟨i, hi, rfl⟩
      set r := j % m.length with hr
      have hrlt : r < m.length := Nat.mod_lt _ hlen
      refine ⟨(m.length - r + i) % m.length, Nat.mod_lt _ hlen, ?_⟩
      have hjr : j ≡ r [MOD m.length] := by
        rw [hr]
        exact (Nat.mod_modEq j m.length).symm
      have hA := hjr.add (Nat.mod_modEq (m.length - r + i) m.length)
      have hB : r + (m.length - r + i) = m.length + i := by omega
      rw [hB] at hA
      have hC : (j + (m.length - r + i) % m.length) % m.length = i := by
        have hD : m.length + i ≡ i [MOD m.length] := Nat.add_mod_left _ _
        have hE := hA.trans hD
        rw [Nat.ModEq] at hE
        rw [hE, Nat.mod_eq_of_lt hi]
      have : (m.rotate j).rotate ((m.length - r + i) % m.length) = m.rotate i := by
        rw [List.rotate_rotate, ← List.rotate_mod m (j + (m.length - r + i) % m.length),
          hC]
      exact this.symm

/-- Canonicalization is invariant under rotation. -/
theorem canonical_rotate_eq (m : List Char) (j : Nat) :
    canonical (m.rotate j) = canonical m := by
  rcases eq_or_ne m [] with rfl | hm
  · rw [List.rotate_nil]
  · have hm2 : m.rotate j ≠ [] := by
      intro h
      apply hm
      have hlen := List.length_rotate m j
      rw [h] at hlen
      exact List.length_eq_zero.1 hlen.symm
    have h1 : canonical (m.rotate j) ∈ cycles m :=
      (mem_cycles_rotate m _ j).1 (canonical_mem _ hm2)
    have h2 : canonical m ∈ cycles (m.rotate j) :=
      (mem_cycles_rotate m _ j).2 (canonical_mem _ hm)
    exact le_antisymm
      (canonical_le (m.rotate j) _ (List.mem_cons_of_mem _ h2))
      (canonical_le m _ (List.mem_cons_of_mem _ h1))

/-- Canonicalization is idempotent. -/
theorem canonical_idem (m : List Char) : canonical (canonical m) = canonical m := by
  rcases eq_or_ne m [] with rfl | hm
  · rfl
  · obtain ⟨i, hi, hrot⟩ := (mem_cycles_iff m (canonical m)).1 (canonical_mem m hm)
    rw [hrot, canonical_rotate_eq m i]
    exact hrot

/-- The spec-modelled rotation agrees with the library rotation. -/
theorem rotate_eq_listRotate (m : List Char) (j : Nat) : rotate m j = m.rotate j :=
  List.rotate_eq_drop_append_take_mod.symm

/-- C7: motif canonicalization is idempotent and rotation-invariant: for
every motif m, canonical (canonical m) = canonical m, and for every
rotation offset j, canonical m = canonical (rotate m j). -/
theorem C7_canonical_idempotent_rotation_invariant (m : List Char) (j : Nat) :
    canonical (canonical m) = canonical m ∧
    canonical m = canonical (rotate m j) := by
  refine ⟨canonical_idem m, ?_⟩
  rw [rotate_eq_listRotate, canonical_rotate_eq]
